import Mathlib

/-!
Shallow embedding of the SafeRoom3D map-population tool
(`populate_map.py`) and verification of its specification.

Modelling conventions:
* Python byte strings become `List Nat`; the outer base64+gzip layer of
  `decode_tile_data` is an external library call and is abstracted as a
  parameter `dec : String -> Except Unit (List Nat)` (error = malformed
  compressed data).
* The tile grid is a `List (List Nat)` exactly as built by
  `[[0] * depth for _ in range(width)]`; list indexing and in-place
  assignment are embedded by the total helpers `nthRow`/`nth0`/`setRow`/
  `setNth`, which agree with Python on every access the program performs
  (all its reads and writes are bounds-checked before use).
* Python floats: every float the program compares against a threshold is
  the square root of an integer (`distance_from_spawn` applied to integer
  coordinates), and each threshold `t` is an integer, so `dist < t` holds
  iff `distSq < t*t`; the embedding therefore works with exact squared
  distances.  Jitter, rotation and scale floats never feed a comparison
  and are embedded as rationals supplied by the random oracle.
* `random.*` calls are embedded as an `Oracle` of arbitrary streams, one
  per call site; every theorem quantifies over the oracle, so it holds
  for every realisable sequence of random draws.  `random.shuffle` is an
  oracle function on lists; theorems that need it assume it permutes its
  input.
* The dynamic-typing slip of the source (`placed_positions =
  list(spawn_pos)` inserts two scalar ints into the position register) is
  embedded by the register entry type `PyVal` (scalar or pair);
  subscripting a scalar raises `TypeError`, embedded as `Except.error`.
-/

/-! ### Positions and squared Euclidean distance -/

/-- A grid position `(x, z)` as used by the placement engine. -/
abbrev GPos : Type := Int × Int

/-- Squared Euclidean distance between two positions.  Embeds
`distance_from_spawn` of the source: the source returns
`((pos[0]-spawn[0])**2 + (pos[1]-spawn[1])**2) ** 0.5` and only ever
compares it against integer thresholds, so we keep the exact square. -/
def distSq (p q : GPos) : Int :=
  (p.1 - q.1) ^ 2 + (p.2 - q.2) ^ 2

theorem distSq_comm (p q : GPos) : distSq p q = distSq q p := by
  unfold distSq; ring

theorem distSq_nonneg (p q : GPos) : 0 ≤ distSq p q := by
  unfold distSq; positivity

/-! ### The tile grid and its primitive operations -/

/-- A decoded tile grid: `width` rows, each of length `depth`. -/
abbrev Grid : Type := List (List Nat)

/-- Python `row[z]` (all reads the program performs are in bounds; out of
bounds we default to `0`, which is never exercised on program traces). -/
def nth0 : List Nat → Nat → Nat
  | [], _ => 0
  | a :: _, 0 => a
  | _ :: l, n + 1 => nth0 l n

/-- Python `tiles[x]`. -/
def nthRow : Grid → Nat → List Nat
  | [], _ => []
  | r :: _, 0 => r
  | _ :: g, n + 1 => nthRow g n

/-- Python `row[z] = v` (in-range assignment; out of range is identity,
never exercised on program traces). -/
def setNth : List Nat → Nat → Nat → List Nat
  | [], _, _ => []
  | _ :: l, 0, v => v :: l
  | a :: l, n + 1, v => a :: setNth l n v

/-- Python `tiles[x] = r`. -/
def setRow : Grid → Nat → List Nat → Grid
  | [], _, _ => []
  | _ :: g, 0, r => r :: g
  | a :: g, n + 1, r => a :: setRow g n r

/-- `tiles[x][z]`. -/
def cellAt (g : Grid) (x z : Nat) : Nat := nth0 (nthRow g x) z

/-- `tiles[x][z] = v`. -/
def setCell (g : Grid) (x z : Nat) (v : Nat) : Grid :=
  setRow g x (setNth (nthRow g x) z v)

/-- `[[0] * depth for _ in range(width)]`. -/
def initGrid (width depth : Nat) : Grid :=
  List.replicate width (List.replicate depth 0)

theorem length_setRow (g : Grid) (x : Nat) (r : List Nat) :
    (setRow g x r).length = g.length := by
  induction g generalizing x with
  | nil => rfl
  | cons a g ih => cases x with
    | zero => rfl
    | succ n => simpa [setRow] using ih n

theorem mem_setRow : ∀ {g : Grid} {x : Nat} {r row : List Nat},
    row ∈ setRow g x r → row ∈ g ∨ row = r
  | [], _, _, _, h => by simp [setRow] at h
  | a :: g, 0, r, row, h => by
    rcases List.mem_cons.mp h with h | h
    · exact Or.inr h
    · exact Or.inl (List.mem_cons_of_mem _ h)
  | a :: g, n + 1, r, row, h => by
    rcases List.mem_cons.mp h with h | h
    · exact Or.inl (h ▸ List.mem_cons_self _ _)
    · rcases mem_setRow h with h' | h'
      · exact Or.inl (List.mem_cons_of_mem _ h')
      · exact Or.inr h'

theorem length_setNth (l : List Nat) (i v : Nat) :
    (setNth l i v).length = l.length := by
  induction l generalizing i with
  | nil => rfl
  | cons a l ih => cases i with
    | zero => rfl
    | succ n => simpa [setNth] using ih n

theorem nthRow_mem {g : Grid} {x : Nat} (h : x < g.length) :
    nthRow g x ∈ g := by
  induction g generalizing x with
  | nil => simp at h
  | cons a g ih =>
    cases x with
    | zero => exact List.mem_cons_self _ _
    | succ n =>
      exact List.mem_cons_of_mem _ (ih (Nat.lt_of_succ_lt_succ h))

theorem setRow_oob {g : Grid} {x : Nat} (h : g.length ≤ x) (r : List Nat) :
    setRow g x r = g := by
  induction g generalizing x with
  | nil => rfl
  | cons a g ih =>
    cases x with
    | zero => simp at h
    | succ n => simp [setRow, ih (Nat.le_of_succ_le_succ h)]

theorem nthRow_setRow_eq : ∀ {g : Grid} {x : Nat}, x < g.length →
    ∀ (r : List Nat), nthRow (setRow g x r) x = r
  | [], x, h, _ => by simp at h
  | a :: g, 0, _, r => rfl
  | a :: g, n + 1, h, r => nthRow_setRow_eq (Nat.lt_of_succ_lt_succ h) r

theorem nthRow_setRow_ne : ∀ (g : Grid) {x y : Nat}, y ≠ x →
    ∀ (r : List Nat), nthRow (setRow g x r) y = nthRow g y
  | [], _, _, _, _ => rfl
  | a :: g, 0, 0, h, r => absurd rfl h
  | a :: g, 0, _ + 1, _, r => rfl
  | a :: g, _ + 1, 0, _, r => rfl
  | a :: g, n + 1, m + 1, h, r =>
    nthRow_setRow_ne g (fun hm => h (by omega)) r

theorem nth0_setNth_eq : ∀ {l : List Nat} {i : Nat}, i < l.length →
    ∀ (v : Nat), nth0 (setNth l i v) i = v
  | [], i, h, _ => by simp at h
  | a :: l, 0, _, v => rfl
  | a :: l, n + 1, h, v => nth0_setNth_eq (Nat.lt_of_succ_lt_succ h) v

theorem nth0_setNth_ne : ∀ (l : List Nat) {i j : Nat}, j ≠ i →
    ∀ (v : Nat), nth0 (setNth l i v) j = nth0 l j
  | [], _, _, _, _ => rfl
  | a :: l, 0, 0, h, v => absurd rfl h
  | a :: l, 0, _ + 1, _, v => rfl
  | a :: l, _ + 1, 0, _, v => rfl
  | a :: l, n + 1, m + 1, h, v =>
    nth0_setNth_ne l (fun hm => h (by omega)) v

theorem nthRow_replicate (r : List Nat) :
    ∀ (w a : Nat), nthRow (List.replicate w r) a = if a < w then r else []
  | 0, a => by cases a <;> simp [nthRow]
  | w + 1, 0 => by simp [List.replicate, nthRow]
  | w + 1, a + 1 => by
    rw [List.replicate_succ]
    show nthRow (List.replicate w r) a = _
    rw [nthRow_replicate r w a]
    by_cases h : a < w
    · rw [if_pos h, if_pos (by omega)]
    · rw [if_neg h, if_neg (by omega)]

theorem nth0_replicate (w b : Nat) :
    nth0 (List.replicate w 0) b = 0 := by
  induction w generalizing b with
  | zero => cases b <;> rfl
  | succ n ih => cases b with
    | zero => rfl
    | succ m => simpa [List.replicate, nth0] using ih m

theorem cellAt_initGrid (w d a b : Nat) : cellAt (initGrid w d) a b = 0 := by
  unfold cellAt initGrid
  rw [nthRow_replicate]
  split
  · exact nth0_replicate d b
  · cases b <;> rfl

theorem cellAt_setCell_ne_row (g : Grid) {a x : Nat} (h : a ≠ x)
    (z v b : Nat) : cellAt (setCell g x z v) a b = cellAt g a b := by
  unfold cellAt setCell
  rw [nthRow_setRow_ne g h]

theorem cellAt_setCell_ne_col (g : Grid) (x : Nat) {b z : Nat}
    (h : b ≠ z) (v : Nat) : cellAt (setCell g x z v) x b = cellAt g x b := by
  unfold cellAt setCell
  by_cases hx : x < g.length
  · rw [nthRow_setRow_eq hx, nth0_setNth_ne _ h]
  · rw [setRow_oob (Nat.le_of_not_lt hx)]

theorem cellAt_setCell_eq (g : Grid) {x z : Nat} (hx : x < g.length)
    (hz : z < (nthRow g x).length) (v : Nat) :
    cellAt (setCell g x z v) x z = v := by
  unfold cellAt setCell
  rw [nthRow_setRow_eq hx, nth0_setNth_eq (by simpa [length_setNth] using hz)]

/-- Shape of a decoded grid: `width` rows, each of length `depth`. -/
def gridShape (g : Grid) (w d : Nat) : Prop :=
  g.length = w ∧ ∀ row ∈ g, row.length = d

theorem gridShape_initGrid (w d : Nat) : gridShape (initGrid w d) w d := by
  constructor
  · simp [initGrid]
  · intro row hrow
    simp [initGrid] at hrow
    simp [hrow.2]

theorem gridShape_setCell {g : Grid} {w d : Nat} (h : gridShape g w d)
    (x z v : Nat) : gridShape (setCell g x z v) w d := by
  obtain ⟨hlen, hrows⟩ := h
  constructor
  · simpa [setCell, length_setRow] using hlen
  · intro row hrow
    rcases mem_setRow hrow with hmem | hset
    · exact hrows row hmem
    · by_cases hx : x < g.length
      · rw [hset, length_setNth]
        exact hrows _ (nthRow_mem hx)
      · simp only [setCell, setRow_oob (Nat.le_of_not_lt hx)] at hrow
        exact hrows row hrow

/-! ### TileGridCodec: the RLE decoder of `decode_tile_data`

The source decodes base64, gunzips, then runs the RLE loop below over the
decompressed bytes.  The loop state is `(tiles, x, z)`; `writeRun` is the
inner `for _ in range(count)` loop and `rleLoop` the outer `while` loop. -/

/-- Inner loop of the decoder: write `v` into `count` consecutive cells in
column-major order (`z` increments first; at `z = depth` it resets and `x`
advances).  Iterations whose guard `x < width and z < depth` fails leave
the state unchanged, exactly like the source's guarded loop body. -/
def writeRun (w d : Nat) (g : Grid) (x z v : Nat) : Nat → Grid × Nat × Nat
  | 0 => (g, x, z)
  | c + 1 =>
    if x < w ∧ z < d then
      if z + 1 ≥ d then writeRun w d (setCell g x z v) (x + 1) 0 v c
      else writeRun w d (setCell g x z v) x (z + 1) v c
    else writeRun w d g x z v c

/-- Outer `while i < len(decompressed) and x < width` loop.  A value byte
whose next byte is the `0xFF` sentinel followed by a count byte is a run
of that count; a sentinel with no following count byte leaves `count = 1`
(truncated-run tolerance); otherwise the run length is 1. -/
def rleLoop (w d : Nat) : List Nat → Grid → Nat → Nat → Grid × Nat × Nat
  | [], g, x, z => (g, x, z)
  | v :: 255 :: c :: rest2, g, x, z =>
    if x < w then
      rleLoop w d rest2 (writeRun w d g x z v c).1
        (writeRun w d g x z v c).2.1 (writeRun w d g x z v c).2.2
    else (g, x, z)
  | [v, 255], g, x, z =>
    if x < w then writeRun w d g x z v 1 else (g, x, z)
  | v :: rest, g, x, z =>
    if x < w then
      rleLoop w d rest (writeRun w d g x z v 1).1
        (writeRun w d g x z v 1).2.1 (writeRun w d g x z v 1).2.2
    else (g, x, z)

/-- `decode_tile_data`, applied to the already-decompressed inner byte
stream (the base64+gzip outer layer is the caller's `dec`). -/
def decode_tile_data (bytes : List Nat) (width depth : Nat) : Grid :=
  (rleLoop width depth bytes (initGrid width depth) 0 0).1

theorem writeRun_shape : ∀ {g : Grid} {w d : Nat}, gridShape g w d →
    ∀ (x z v c : Nat), gridShape (writeRun w d g x z v c).1 w d
  | g, w, d, h, x, z, v, 0 => h
  | g, w, d, h, x, z, v, c + 1 => by
    show gridShape (writeRun w d g x z v (c + 1)).1 w d
    rw [writeRun]
    split
    · split
      · exact writeRun_shape (gridShape_setCell h x z v) _ _ v c
      · exact writeRun_shape (gridShape_setCell h x z v) _ _ v c
    · exact writeRun_shape h x z v c

theorem rleLoop_cons_other {v : Nat} {rest : List Nat}
    (h1 : ∀ c rest2, rest = 255 :: c :: rest2 → False)
    (h2 : rest = [255] → False) (w d : Nat) (g : Grid) (x z : Nat) :
    rleLoop w d (v :: rest) g x z =
      if x < w then
        rleLoop w d rest (writeRun w d g x z v 1).1
          (writeRun w d g x z v 1).2.1 (writeRun w d g x z v 1).2.2
      else (g, x, z) := by
  rw [rleLoop.eq_def]
  split
  · next heq => exact absurd heq (by simp)
  · next heq =>
    injection heq with hv hr
    exact absurd hr (fun hh => h1 _ _ hh)
  · next heq =>
    injection heq with hv hr
    exact absurd hr h2
  · next heq =>
    injection heq with hv hr
    subst hv; subst hr; rfl

theorem rleLoop_shape {w d : Nat} (bytes : List Nat) (g : Grid) (x z : Nat) :
    gridShape g w d → gridShape (rleLoop w d bytes g x z).1 w d := by
  induction bytes, g, x, z using rleLoop.induct w d with
  | case1 g x z => intro h; simpa [rleLoop] using h
  | case2 v c rest2 g x z hx ih =>
    intro h
    simp only [rleLoop, if_pos hx]
    exact ih (writeRun_shape h x z v c)
  | case3 v c rest2 g x z hx =>
    intro h; simpa [rleLoop, if_neg hx] using h
  | case4 v g x z hx =>
    intro h
    simp only [rleLoop, if_pos hx]
    exact writeRun_shape h x z v 1
  | case5 v g x z hx =>
    intro h; simpa [rleLoop, if_neg hx] using h
  | case6 v rest g x z hne1 hne2 hx ih =>
    intro h
    rw [rleLoop_cons_other hne1 hne2, if_pos hx]
    exact ih (writeRun_shape h x z v 1)
  | case7 v rest g x z hne1 hne2 hx =>
    intro h
    rw [rleLoop_cons_other hne1 hne2, if_neg hx]
    exact h

/-- C5: for every decompressed byte stream and all dimensions, the decoded
grid has exactly `width` rows and every row has exactly `depth` entries. -/
theorem claim_C5_grid_shape (bytes : List Nat) (width depth : Nat) :
    (decode_tile_data bytes width depth).length = width ∧
      ∀ row ∈ decode_tile_data bytes width depth, row.length = depth :=
  rleLoop_shape bytes (initGrid width depth) 0 0 (gridShape_initGrid width depth)

/-- Witness for C5 at a concrete stream: the single byte `[1]` decoded at
width 2, depth 3; row `[1, 0, 0]` is a row of the result. -/
theorem claim_C5_grid_shape_witness :
    (decode_tile_data [1] 2 3).length = 2 ∧ ([1, 0, 0] : List Nat).length = 3 :=
  ⟨(claim_C5_grid_shape [1] 2 3).1,
   (claim_C5_grid_shape [1] 2 3).2 [1, 0, 0] (by decide)⟩

/-! ### Column-major cursor order (for C6 and C7) -/

/-- `(a, b)` is at or after cursor `(x, z)` in column-major order. -/
def afterCursor (x z a b : Nat) : Prop := x < a ∨ (x = a ∧ z ≤ b)

instance (x z a b : Nat) : Decidable (afterCursor x z a b) := by
  unfold afterCursor; infer_instance

/-- All in-range cells at or after cursor `(x, z)` are still zero. -/
def zeroAfter (d : Nat) (g : Grid) (x z : Nat) : Prop :=
  ∀ a b, b < d → afterCursor x z a b → cellAt g a b = 0

theorem writeRun_zeroAfter {w d : Nat} (v : Nat) :
    ∀ (c : Nat) (g : Grid) (x z : Nat), zeroAfter d g x z →
      zeroAfter d (writeRun w d g x z v c).1
        (writeRun w d g x z v c).2.1 (writeRun w d g x z v c).2.2
  | 0, g, x, z, h => h
  | c + 1, g, x, z, h => by
    show zeroAfter d (writeRun w d g x z v (c + 1)).1 _ _
    rw [writeRun]
    split
    · next hg =>
      split
      · next hz1 =>
        refine writeRun_zeroAfter v c _ _ _ (fun a b hb hab => ?_)
        rcases hab with hlt | ⟨heq, hle⟩
        · rw [cellAt_setCell_ne_row _ (by omega : a ≠ x)]
          exact h a b hb (Or.inl (by omega))
        · rw [cellAt_setCell_ne_row _ (by omega : a ≠ x)]
          exact h a b hb (Or.inl (by omega))
      · next hz1 =>
        refine writeRun_zeroAfter v c _ _ _ (fun a b hb hab => ?_)
        by_cases hax : a = x
        · subst hax
          have hbz : b ≠ z := by
            rcases hab with hlt | ⟨heq, hle⟩ <;> omega
          rw [cellAt_setCell_ne_col _ _ hbz]
          refine h a b hb ?_
          rcases hab with hlt | ⟨heq, hle⟩
          · omega
          · exact Or.inr ⟨rfl, by omega⟩
        · rw [cellAt_setCell_ne_row _ hax]
          refine h a b hb ?_
          rcases hab with hlt | ⟨heq, hle⟩
          · exact Or.inl hlt
          · exact absurd heq (fun hh => hax hh.symm)
    · exact writeRun_zeroAfter v c _ _ _ h

theorem rleLoop_zeroAfter {w d : Nat} (bytes : List Nat) (g : Grid)
    (x z : Nat) :
    zeroAfter d g x z →
      zeroAfter d (rleLoop w d bytes g x z).1
        (rleLoop w d bytes g x z).2.1 (rleLoop w d bytes g x z).2.2 := by
  induction bytes, g, x, z using rleLoop.induct w d with
  | case1 g x z => intro h; simpa [rleLoop] using h
  | case2 v c rest2 g x z hx ih =>
    intro h
    simp only [rleLoop, if_pos hx]
    exact ih (writeRun_zeroAfter v c g x z h)
  | case3 v c rest2 g x z hx =>
    intro h; simpa [rleLoop, if_neg hx] using h
  | case4 v g x z hx =>
    intro h
    simp only [rleLoop, if_pos hx]
    exact writeRun_zeroAfter v 1 g x z h
  | case5 v g x z hx =>
    intro h; simpa [rleLoop, if_neg hx] using h
  | case6 v rest g x z hne1 hne2 hx ih =>
    intro h
    rw [rleLoop_cons_other hne1 hne2, if_pos hx]
    exact ih (writeRun_zeroAfter v 1 g x z h)
  | case7 v rest g x z hne1 hne2 hx =>
    intro h
    rw [rleLoop_cons_other hne1 hne2, if_neg hx]
    exact h

/-- C7: RLE decoding is truncation-tolerant.  `rleLoop` is a total
function (it never raises), it also consumes a trailing truncated run
(a bare value byte, or a value byte plus the `0xFF` sentinel with no
count byte) as a run of length one, and every cell the stream did not
write — every in-range cell at or after the final column-major cursor —
still holds code 0. -/
theorem claim_C7_truncation_tolerant (width depth : Nat) (bytes : List Nat) :
    (∀ a b, b < depth →
        afterCursor (rleLoop width depth bytes (initGrid width depth) 0 0).2.1
          (rleLoop width depth bytes (initGrid width depth) 0 0).2.2 a b →
        cellAt (decode_tile_data bytes width depth) a b = 0) ∧
    (∀ (v : Nat) (g : Grid) (x z : Nat),
        rleLoop width depth [v] g x z =
          if x < width then writeRun width depth g x z v 1 else (g, x, z)) ∧
    (∀ (v : Nat) (g : Grid) (x z : Nat),
        rleLoop width depth [v, 255] g x z =
          if x < width then writeRun width depth g x z v 1 else (g, x, z)) := by
  refine ⟨?_, ?_, ?_⟩
  · intro a b hb hab
    have h0 : zeroAfter depth (initGrid width depth) 0 0 :=
      fun a b _ _ => cellAt_initGrid width depth a b
    exact rleLoop_zeroAfter bytes (initGrid width depth) 0 0 h0 a b hb hab
  · intro v g x z
    rw [rleLoop_cons_other (by intro c rest2 h; simp at h) (by intro h; simp at h)]
    split
    · rfl
    · rfl
  · intro v g x z
    simp only [rleLoop]

/-- Witness for C7: decoding the truncated stream `[7]` in a 2×2 grid
ends with the cursor at `(0, 1)`, and the unwritten cell `(0, 1)`
(in range, at the cursor) holds 0; the truncated-run equations are
instantiated at `x = 0`. -/
theorem claim_C7_truncation_tolerant_witness :
    cellAt (decode_tile_data [7] 2 2) 0 1 = 0 ∧
      rleLoop 2 2 [7] (initGrid 2 2) 0 0 =
        if 0 < 2 then writeRun 2 2 (initGrid 2 2) 0 0 7 1
        else (initGrid 2 2, 0, 0) :=
  ⟨(claim_C7_truncation_tolerant 2 2 [7]).1 0 1 (by decide) (by decide),
   (claim_C7_truncation_tolerant 2 2 [7]).2.1 7 (initGrid 2 2) 0 0⟩

/-! ### Column-fill characterisation of `writeRun` (for C6) -/

/-- `c` consecutive writes of `v` down column-major order starting at
`(x, z)` (no wrap). -/
def colSet (x v : Nat) : Grid → Nat → Nat → Grid
  | g, _, 0 => g
  | g, z, c + 1 => colSet x v (setCell g x z v) (z + 1) c

theorem writeRun_col {w d x v : Nat} (hx : x < w) :
    ∀ (c z : Nat) (g : Grid), z + c < d →
      writeRun w d g x z v c = (colSet x v g z c, x, z + c)
  | 0, z, g, _ => by simp [writeRun, colSet]
  | c + 1, z, g, h => by
    rw [writeRun, if_pos ⟨hx, by omega⟩, if_neg (by omega)]
    rw [writeRun_col hx c (z + 1) (setCell g x z v) (by omega)]
    have hzc : z + 1 + c = z + (c + 1) := by omega
    rw [colSet, hzc]

theorem writeRun_col_end {w d x v : Nat} (hx : x < w) :
    ∀ (c z : Nat) (g : Grid), 0 < c → z + c = d →
      writeRun w d g x z v c = (colSet x v g z c, x + 1, 0)
  | 0, z, g, hc, _ => absurd hc (by omega)
  | 1, z, g, _, h => by
    rw [writeRun, if_pos ⟨hx, by omega⟩, if_pos (by omega)]
    rfl
  | c + 2, z, g, _, h => by
    rw [writeRun, if_pos ⟨hx, by omega⟩, if_neg (by omega)]
    exact writeRun_col_end hx (c + 1) (z + 1) (setCell g x z v) (by omega)
      (by omega)

theorem cellAt_colSet_ne_row {a x v : Nat} (h : a ≠ x) :
    ∀ (c z : Nat) (g : Grid) (b : Nat),
      cellAt (colSet x v g z c) a b = cellAt g a b
  | 0, z, g, b => rfl
  | c + 1, z, g, b => by
    rw [colSet, cellAt_colSet_ne_row h c (z + 1) _ b,
      cellAt_setCell_ne_row _ h]

theorem cellAt_colSet_lo {x v b : Nat} :
    ∀ (c z : Nat) (g : Grid), b < z →
      cellAt (colSet x v g z c) x b = cellAt g x b
  | 0, z, g, _ => rfl
  | c + 1, z, g, h => by
    rw [colSet, cellAt_colSet_lo c (z + 1) _ (by omega),
      cellAt_setCell_ne_col _ _ (by omega)]

theorem cellAt_colSet_hit {w d x v b : Nat} (hx : x < w) (hb : b < d) :
    ∀ (c z : Nat) (g : Grid), gridShape g w d → z ≤ b → b < z + c →
      cellAt (colSet x v g z c) x b = v
  | 0, z, g, _, h1, h2 => absurd h2 (by omega)
  | c + 1, z, g, hshape, h1, h2 => by
    rw [colSet]
    rcases Nat.eq_or_lt_of_le h1 with hzb | hzb
    · subst hzb
      rw [cellAt_colSet_lo c (z + 1) _ (by omega)]
      have hxlen : x < g.length := by rw [hshape.1]; exact hx
      have hrow : (nthRow g x).length = d := hshape.2 _ (nthRow_mem hxlen)
      exact cellAt_setCell_eq g hxlen (by omega) v
    · exact cellAt_colSet_hit hx hb c (z + 1) _
        (gridShape_setCell hshape x z v) (by omega) (by omega)

/-- C6: the decoder fills in column-major order; in particular a stream
beginning with the run `(value 1, sentinel 0xFF, count 5)`, decoded with
`depth ≥ 5` (and positive width), first writes `grid[0][0..4] = 1` while
every cell with `x > 0` is still untouched (code 0), and only then
continues with the rest of the stream from the advanced cursor. -/
theorem claim_C6_column_major (w d : Nat) (rest : List Nat)
    (hw : 1 ≤ w) (hd : 5 ≤ d) :
    rleLoop w d (1 :: 255 :: 5 :: rest) (initGrid w d) 0 0 =
      rleLoop w d rest (writeRun w d (initGrid w d) 0 0 1 5).1
        (writeRun w d (initGrid w d) 0 0 1 5).2.1
        (writeRun w d (initGrid w d) 0 0 1 5).2.2 ∧
    (∀ j, j < 5 → cellAt (writeRun w d (initGrid w d) 0 0 1 5).1 0 j = 1) ∧
    (∀ a b, 0 < a → cellAt (writeRun w d (initGrid w d) 0 0 1 5).1 a b = 0) := by
  have hx : 0 < w := hw
  have hcol : (writeRun w d (initGrid w d) 0 0 1 5).1 =
      colSet 0 1 (initGrid w d) 0 5 := by
    rcases Nat.eq_or_lt_of_le hd with h5 | h5
    · rw [writeRun_col_end hx 5 0 (initGrid w d) (by omega) (by omega)]
    · rw [writeRun_col hx 5 0 (initGrid w d) (by omega)]
  refine ⟨?_, ?_, ?_⟩
  · simp only [rleLoop, if_pos hx]
  · intro j hj
    rw [hcol]
    exact cellAt_colSet_hit hx (by omega) 5 0 _ (gridShape_initGrid w d)
      (by omega) (by omega)
  · intro a b ha
    rw [hcol, cellAt_colSet_ne_row (by omega) 5 0 _ b]
    exact cellAt_initGrid w d a b

/-- Witness for C6 at width 1, depth 5, empty remaining stream: cell
`(0, 4)` holds 1 after the first run. -/
theorem claim_C6_column_major_witness :
    cellAt (writeRun 1 5 (initGrid 1 5) 0 0 1 5).1 0 4 = 1 :=
  (claim_C6_column_major 1 5 [] (by decide) (by decide)).2.1 4 (by decide)

/-! ### FloorIndexer -/

/-- `find_floor_positions`: all `(x, z)` with tile code 1, scanned in
x-then-z order. -/
def find_floor_positions (tiles : Grid) (width depth : Nat) : List GPos :=
  (List.range width).flatMap (fun x =>
    (List.range depth).filterMap (fun z =>
      if cellAt tiles x z = 1 then some ((x : Int), (z : Int)) else none))

theorem mem_find_floor_positions {tiles : Grid} {width depth : Nat}
    {p : GPos} :
    p ∈ find_floor_positions tiles width depth ↔
      ∃ x z : Nat, x < width ∧ z < depth ∧ cellAt tiles x z = 1 ∧
        p = ((x : Int), (z : Int)) := by
  unfold find_floor_positions
  simp only [List.mem_flatMap, List.mem_filterMap, List.mem_range]
  constructor
  · rintro ⟨x, hx, z, hz, hif⟩
    refine ⟨x, z, hx, hz, ?_, ?_⟩
    · by_contra hne
      rw [if_neg hne] at hif
      exact Option.noConfusion hif
    · by_cases h1 : cellAt tiles x z = 1
      · rw [if_pos h1] at hif
        exact (Option.some.injEq _ _ ▸ hif).symm
      · rw [if_neg h1] at hif
        exact Option.noConfusion hif
  · rintro ⟨x, z, hx, hz, h1, hp⟩
    exact ⟨x, hx, z, hz, by rw [if_pos h1, hp]⟩

/-! ### Type tables of the placement engine -/

def TIER1_MONSTERS : List String := [r"dungeon_rat", r"slime", r"goblin"]
def TIER2_MONSTERS : List String :=
  [r"goblin_shaman", r"goblin_thrower", r"spider", r"mushroom", r"bat"]
def TIER3_MONSTERS : List String :=
  [r"skeleton", r"wolf", r"lizard", r"eye", r"badlama"]
def TIER4_MONSTERS : List String :=
  [r"crawler_killer", r"shadow_stalker", r"mimic", r"flesh_golem"]
def TIER5_MONSTERS : List String :=
  [r"living_armor", r"plague_bearer", r"lava_elemental", r"void_spawn"]
def BOSSES : List String :=
  [r"skeleton_lord", r"dragon_king", r"spider_queen", r"the_butcher",
   r"mordecai", r"mongo"]
def DUNGEON_PROPS : List String :=
  [r"barrel", r"crate", r"pot", r"torch", r"bone_pile", r"skull_pile",
   r"rubble_heap"]
def TREASURE_PROPS : List String :=
  [r"chest", r"treasure_chest", r"scattered_coins", r"ancient_scroll"]
def SPOOKY_PROPS : List String :=
  [r"blood_pool", r"coiled_chains", r"manacles", r"discarded_sword",
   r"forgotten_shield"]
def NATURE_PROPS : List String :=
  [r"moss_patch", r"glowing_mushrooms", r"water_puddle", r"thorny_vines"]
def CAMP_PROPS : List String :=
  [r"campfire", r"abandoned_campfire", r"rat_nest", r"moldy_bread"]

/-- `get_tier_for_distance`, taking the squared distance (`dist < t` iff
`dsq < t^2` for the integer thresholds 30, 60, 100, 150). -/
def get_tier_for_distance (dsq : Int) : Nat :=
  if dsq < 900 then 1
  else if dsq < 3600 then 2
  else if dsq < 10000 then 3
  else if dsq < 22500 then 4
  else 5

/-- The `if tier == 1 ... else TIER5` chain selecting the monster pool. -/
def poolForTier : Nat → List String
  | 1 => TIER1_MONSTERS
  | 2 => TIER2_MONSTERS
  | 3 => TIER3_MONSTERS
  | 4 => TIER4_MONSTERS
  | _ => TIER5_MONSTERS

/-! ### The occupancy register and the clearance check -/

/-- A register entry as the Python list holds it: either a scalar int
(the two coordinates inserted by `list(spawn_pos)`) or an `(x, z)`
tuple. -/
inductive PyVal where
  | int : Int → PyVal
  | pair : GPos → PyVal
deriving DecidableEq

/-- `distance_from_spawn(pos, existing)` for a register entry: on a
tuple it is the (squared) Euclidean distance; on a scalar int the
subscript `existing[0]` raises `TypeError`, embedded as an error. -/
def distSqE (p : GPos) : PyVal → Except Unit Int
  | PyVal.int _ => Except.error ()
  | PyVal.pair q => Except.ok (distSq p q)

/-- `is_position_clear(pos, existing_positions, min_dist)` with the
squared threshold: returns `false` at the first register entry closer
than `min_dist`, propagates the `TypeError` of a scalar entry. -/
def is_position_clear (p : GPos) (minSq : Int) :
    List PyVal → Except Unit Bool
  | [] => Except.ok true
  | e :: rest =>
    match distSqE p e with
    | Except.error u => Except.error u
    | Except.ok dsq =>
      if dsq < minSq then Except.ok false
      else is_position_clear p minSq rest

/-- `random.choice` embedded as indexing: the oracle supplies the index,
reduced modulo the pool size. -/
def nthStr : List String → Nat → String
  | [], _ => ""
  | s :: _, 0 => s
  | _ :: l, n + 1 => nthStr l n

/-- The process-local random generator, embedded as arbitrary streams of
draws, one stream per call site, indexed by iteration counters. -/
structure Oracle where
  shuffle : List GPos → List GPos
  monIdx : Nat → Nat
  bossRoll : Nat → Bool
  bossIdx : Nat → Nat
  rotA : Nat → Rat
  propIdx : Nat → Nat
  jitX : Nat → Rat
  jitZ : Nat → Rat
  rotB : Nat → Rat
  sclB : Nat → Rat
  grpSize : Nat → Nat
  membOff : Nat → Nat → GPos
  membIdx : Nat → Nat → Nat
  membRot : Nat → Nat → Rat

/-! ### Entity records and the level document -/

/-- A generated or pre-existing monster record
`{type, roomId, position:{x,z}, level, isBoss, rotationY}`. -/
structure Enemy where
  type : String
  roomId : Int
  posX : Int
  posZ : Int
  level : Nat
  isBoss : Bool
  rotY : Rat
deriving DecidableEq

/-- A prop record `{type, x, y, z, rotationY, scale}`.  The extra
`basePos` field records the sampled floor cell the jittered `x`/`z`
coordinates were derived from (the registered, unjittered position); it
exists only in the embedding so that theorems can speak about it. -/
structure PlacedProp where
  type : String
  x : Rat
  y : Rat
  z : Rat
  rotY : Rat
  scale : Rat
  basePos : GPos
deriving DecidableEq

/-- The level document (`map_data`); absent JSON fields are `none`. -/
structure MapDoc where
  width : Option Nat
  depth : Option Nat
  spawnPos : Option GPos
  tileData : Option String
  enemies : List Enemy
  placedProps : List PlacedProp
  name : Option String
deriving DecidableEq

/-- How a run can abort: missing/empty tile data (reported, no output),
a malformed outer compression layer, or the uncaught `TypeError` from
the clearance check. -/
inductive PMError where
  | noTileData : PMError
  | decodeFail : PMError
  | typeError : PMError
deriving DecidableEq

def emptyStr : String := ""

def defaultMapName : String := "Map"

def populatedMark : String := " (Populated)"

/-! ### SpatialPlacementEngine: the three placement phases

Loop state threaded through each phase: the remaining shuffled floor
list, the shared register `placed_positions`, the phase's placement
counter, and an iteration index `k` addressing the oracle's streams.
A `TypeError` raised by the clearance check aborts the whole run. -/

/-- The monster record built by an accepted Phase A candidate: tier from
distance, type from the tier pool, 2%-probability boss override beyond
distance 120 (type only; level keeps `max(1, tier)`). -/
def enemyA (o : Oracle) (spawn pos : GPos) (k : Nat) : Enemy :=
  let dsq := distSq pos spawn
  let tier := get_tier_for_distance dsq
  let base := nthStr (poolForTier tier) (o.monIdx k % (poolForTier tier).length)
  let boss := decide (14400 < dsq) && o.bossRoll k
  let mty := if boss then nthStr BOSSES (o.bossIdx k % BOSSES.length) else base
  { type := mty, roomId := -1, posX := pos.1, posZ := pos.2,
    level := max 1 tier, isBoss := boss, rotY := o.rotA k }

/-- Phase A — single monsters.  Squared thresholds: safe zone 15 → 225,
clearance 5 → 25, boss range 120 → 14400. -/
def phaseA (o : Oracle) (spawn : GPos) (t : Nat) :
    List GPos → List PyVal → Nat → Nat →
      Except Unit (List Enemy × List PyVal × Nat)
  | [], reg, placed, _ => Except.ok ([], reg, placed)
  | pos :: rest, reg, placed, k =>
    if t ≤ placed then Except.ok ([], reg, placed)
    else
      if distSq pos spawn < 225 then phaseA o spawn t rest reg placed (k + 1)
      else
        match is_position_clear pos 25 reg with
        | Except.error u => Except.error u
        | Except.ok false => phaseA o spawn t rest reg placed (k + 1)
        | Except.ok true =>
          match phaseA o spawn t rest (reg ++ [PyVal.pair pos])
              (placed + 1) (k + 1) with
          | Except.error u => Except.error u
          | Except.ok (ms, reg2, n) =>
            Except.ok (enemyA o spawn pos k :: ms, reg2, n)

/-- The prop record built by an accepted Phase B candidate: pool from the
distance band, jittered fractional coordinates, `y = 0`. -/
def propB (o : Oracle) (spawn pos : GPos) (k : Nat) : PlacedProp :=
  let dsq := distSq pos spawn
  let pool :=
    if dsq < 900 then DUNGEON_PROPS ++ CAMP_PROPS
    else if dsq < 6400 then DUNGEON_PROPS ++ NATURE_PROPS
    else if dsq < 16900 then DUNGEON_PROPS ++ SPOOKY_PROPS ++ TREASURE_PROPS
    else SPOOKY_PROPS ++ TREASURE_PROPS
  { type := nthStr pool (o.propIdx k % pool.length),
    x := (pos.1 : Rat) + o.jitX k, y := 0,
    z := (pos.2 : Rat) + o.jitZ k,
    rotY := o.rotB k, scale := o.sclB k, basePos := pos }

/-- Phase B — props.  Squared thresholds: clearance 2 → 4; pool bands
30 → 900, 80 → 6400, 130 → 16900.  The record's `x`/`z` carry the
jitter; the registered position is the unjittered cell. -/
def phaseB (o : Oracle) (spawn : GPos) (t : Nat) :
    List GPos → List PyVal → Nat → Nat →
      Except Unit (List PlacedProp × List PyVal × Nat)
  | [], reg, placed, _ => Except.ok ([], reg, placed)
  | pos :: rest, reg, placed, k =>
    if t ≤ placed then Except.ok ([], reg, placed)
    else
      match is_position_clear pos 4 reg with
      | Except.error u => Except.error u
      | Except.ok false => phaseB o spawn t rest reg placed (k + 1)
      | Except.ok true =>
        match phaseB o spawn t rest (reg ++ [PyVal.pair pos])
            (placed + 1) (k + 1) with
        | Except.error u => Except.error u
        | Except.ok (ps, reg2, n) =>
          Except.ok (propB o spawn pos k :: ps, reg2, n)

/-- The Phase C inner member loop (`for i in range(cluster_size)`): the
oracle's `membOff` stream supplies the truncated integer offset of
`int(pos + random.uniform(-4, 4))` relative to the anchor; members out
of bounds or on a non-floor cell are discarded. -/
def clusterMembers (o : Oracle) (w d : Nat) (tiles : Grid)
    (pool : List String) (tier : Nat) (anchor : GPos) (k : Nat) :
    Nat → Nat → List Enemy
  | _, 0 => []
  | i, r + 1 =>
    let off := o.membOff k i
    let mp : GPos := (anchor.1 + off.1, anchor.2 + off.2)
    let rest := clusterMembers o w d tiles pool tier anchor k (i + 1) r
    if mp.1 < 0 ∨ (w : Int) ≤ mp.1 then rest
    else if mp.2 < 0 ∨ (d : Int) ≤ mp.2 then rest
    else if cellAt tiles mp.1.toNat mp.2.toNat ≠ 1 then rest
    else
      { type := nthStr pool (o.membIdx k i % pool.length), roomId := -1,
        posX := mp.1, posZ := mp.2, level := max 1 tier, isBoss := false,
        rotY := o.membRot k i } :: rest

/-- The cluster pool of a Phase C anchor (`tier <= 2` → pools 1∪2,
`tier <= 3` → 2∪3, else 3∪4). -/
def clusterPool (tier : Nat) : List String :=
  if tier ≤ 2 then TIER1_MONSTERS ++ TIER2_MONSTERS
  else if tier ≤ 3 then TIER2_MONSTERS ++ TIER3_MONSTERS
  else TIER3_MONSTERS ++ TIER4_MONSTERS

/-- The member batch emitted for an accepted Phase C anchor. -/
def membersC (o : Oracle) (w d : Nat) (tiles : Grid) (spawn pos : GPos)
    (k : Nat) : List Enemy :=
  clusterMembers o w d tiles (clusterPool (get_tier_for_distance (distSq pos spawn)))
    (get_tier_for_distance (distSq pos spawn)) pos k 0 (o.grpSize k)

/-- Phase C — monster clusters.  Squared thresholds: anchor safe zone
40 → 1600, clearance 10 → 100.  Only the anchor is registered. -/
def phaseC (o : Oracle) (spawn : GPos) (w d : Nat) (tiles : Grid)
    (t : Nat) :
    List GPos → List PyVal → Nat → Nat →
      Except Unit (List Enemy × List PyVal × Nat)
  | [], reg, placed, _ => Except.ok ([], reg, placed)
  | pos :: rest, reg, placed, k =>
    if t ≤ placed then Except.ok ([], reg, placed)
    else
      if distSq pos spawn < 1600 then
        phaseC o spawn w d tiles t rest reg placed (k + 1)
      else
        match is_position_clear pos 100 reg with
        | Except.error u => Except.error u
        | Except.ok false => phaseC o spawn w d tiles t rest reg placed (k + 1)
        | Except.ok true =>
          match phaseC o spawn w d tiles t rest (reg ++ [PyVal.pair pos])
              (placed + 1) (k + 1) with
          | Except.error u => Except.error u
          | Except.ok (ms, reg2, n) =>
            Except.ok (membersC o w d tiles spawn pos k ++ ms, reg2, n)

/-- `floor_positions[::50]`: every 50th entry of the shuffled list. -/
def stride50 (l : List GPos) : List GPos :=
  (l.enum.filter (fun pr => pr.1 % 50 == 0)).map Prod.snd

/-- `placed_positions = list(spawn_pos)`: Python's `list` applied to an
int 2-tuple yields the two scalar coordinates as separate entries. -/
def pyListOfPair (p : GPos) : List PyVal := [PyVal.int p.1, PyVal.int p.2]

/-- The occupancy register as initialized before Phase A: `list(spawn_pos)`
followed by the positions of the document's pre-existing enemies. -/
def initRegister (spawn : GPos) (enemies : List Enemy) : List PyVal :=
  pyListOfPair spawn ++ enemies.map (fun e => PyVal.pair (e.posX, e.posZ))

/-- The merge step (lines `map_data['enemies'] = ... + new_enemies` etc.):
append generated entities to the existing lists and suffix the name. -/
def mergeStep (doc : MapDoc) (newEnemies : List Enemy)
    (newProps : List PlacedProp) : MapDoc :=
  { doc with
    enemies := doc.enemies ++ newEnemies,
    placedProps := doc.placedProps ++ newProps,
    name := some (doc.name.getD defaultMapName ++ populatedMark) }

/-- The floor list computed by a run of `populate_map` whose tile blob
decompressed to `bytes`. -/
def floorsFrom (doc : MapDoc) (bytes : List Nat) : List GPos :=
  find_floor_positions
    (decode_tile_data bytes (doc.width.getD 100) (doc.depth.getD 100))
    (doc.width.getD 100) (doc.depth.getD 100)

/-- `populate_map(input, output)`: `dec` is the base64+gzip outer layer
of the codec; the returned document models the JSON written to the
output path, and an error models a run that aborts (or raises) without
writing output. -/
def populate_map (doc : MapDoc) (dec : String → Except Unit (List Nat))
    (o : Oracle) : Except PMError MapDoc :=
  let w := doc.width.getD 100
  let dp := doc.depth.getD 100
  let spawn : GPos := doc.spawnPos.getD (((w / 2 : Nat) : Int), ((dp / 2 : Nat) : Int))
  let td := doc.tileData.getD emptyStr
  if td = emptyStr then Except.error PMError.noTileData
  else
    match dec td with
    | Except.error _ => Except.error PMError.decodeFail
    | Except.ok bytes =>
      let tiles := decode_tile_data bytes w dp
      let floors := find_floor_positions tiles w dp
      let shuffled := o.shuffle floors
      let reg0 := initRegister spawn doc.enemies
      match phaseA o spawn (shuffled.length / 100) shuffled reg0 0 0 with
      | Except.error _ => Except.error PMError.typeError
      | Except.ok (msA, reg1, _) =>
        match phaseB o spawn (shuffled.length / 50) shuffled reg1 0 0 with
        | Except.error _ => Except.error PMError.typeError
        | Except.ok (ps, reg2, _) =>
          match phaseC o spawn w dp tiles (min 20 (shuffled.length / 500))
              (stride50 shuffled) reg2 0 0 with
          | Except.error _ => Except.error PMError.typeError
          | Except.ok (msC, _, _) => Except.ok (mergeStep doc (msA ++ msC) ps)

/-! ### Clearance-check lemmas -/

/-- A register whose head is a scalar int makes every clearance check
raise `TypeError` immediately. -/
theorem is_position_clear_int_head (p : GPos) (minSq n : Int)
    (rest : List PyVal) :
    is_position_clear p minSq (PyVal.int n :: rest) = Except.error () := rfl

/-- A clearance check that returns `True` saw every entry, so every pair
entry of the register is at squared distance at least `minSq`. -/
theorem is_position_clear_ok_true {p : GPos} {minSq : Int} :
    ∀ {reg : List PyVal}, is_position_clear p minSq reg = Except.ok true →
      ∀ q : GPos, PyVal.pair q ∈ reg → minSq ≤ distSq p q
  | [], _, q, hq => by simp at hq
  | PyVal.int n :: rest, h, q, hq => by
    rw [is_position_clear_int_head] at h
    exact Except.noConfusion h
  | PyVal.pair q0 :: rest, h, q, hq => by
    rw [is_position_clear] at h
    simp only [distSqE] at h
    by_cases hlt : distSq p q0 < minSq
    · rw [if_pos hlt] at h
      simp at h
    · rw [if_neg hlt] at h
      rcases List.mem_cons.mp hq with hq0 | hqr
      · have : q = q0 := by injection hq0
        subst this
        exact Int.not_lt.mp hlt
      · exact is_position_clear_ok_true h q hqr

/-! ### Phase A invariants -/

/-- If the break condition already holds, every phase returns at once
with nothing placed and the register untouched (Phase A). -/
theorem phaseA_done (o : Oracle) (spawn : GPos) {t placed : Nat}
    (h : t ≤ placed) (floors : List GPos) (reg : List PyVal) (k : Nat) :
    phaseA o spawn t floors reg placed k = Except.ok ([], reg, placed) := by
  cases floors with
  | nil => rfl
  | cons pos rest => rw [phaseA, if_pos h]

/-- With a scalar-headed register, Phase A either raises `TypeError` or
walks off the list having placed nothing (every candidate that survives
the safe-zone skip crashes in its clearance check). -/
theorem phaseA_int_head (o : Oracle) (spawn : GPos) (t : Nat) :
    ∀ (floors : List GPos) (n : Int) (rest2 : List PyVal) (placed k : Nat),
      phaseA o spawn t floors (PyVal.int n :: rest2) placed k =
          Except.error () ∨
        phaseA o spawn t floors (PyVal.int n :: rest2) placed k =
          Except.ok ([], PyVal.int n :: rest2, placed)
  | [], n, rest2, placed, k => Or.inr rfl
  | pos :: rest, n, rest2, placed, k => by
    rw [phaseA]
    by_cases hb : t ≤ placed
    · rw [if_pos hb]
      exact Or.inr rfl
    · rw [if_neg hb]
      by_cases hsafe : distSq pos spawn < 225
      · rw [if_pos hsafe]
        exact phaseA_int_head o spawn t rest n rest2 placed (k + 1)
      · rw [if_neg hsafe, is_position_clear_int_head]
        exact Or.inl rfl

theorem enemyA_pos (o : Oracle) (spawn pos : GPos) (k : Nat) :
    ((enemyA o spawn pos k).posX, (enemyA o spawn pos k).posZ) = pos := rfl

/-- The combined loop invariant of Phase A: the final counter counts the
emitted monsters, it never exceeds the target (when starting below it),
every monster sits on a candidate position from the walked list, every
monster is ≥ 5 away (squared ≥ 25) from every pair entry of the incoming
register, and the emitted monsters are pairwise ≥ 5 apart. -/
theorem phaseA_ok_inv (o : Oracle) (spawn : GPos) (t : Nat) :
    ∀ (floors : List GPos) (reg : List PyVal) (placed k : Nat)
      (ms : List Enemy) (reg2 : List PyVal) (n : Nat),
      phaseA o spawn t floors reg placed k = Except.ok (ms, reg2, n) →
      n = placed + ms.length ∧ n ≤ max placed t ∧
        (∀ m ∈ ms, (m.posX, m.posZ) ∈ floors) ∧
        (∀ m ∈ ms, ∀ q : GPos, PyVal.pair q ∈ reg →
          25 ≤ distSq (m.posX, m.posZ) q) ∧
        List.Pairwise
          (fun a b : Enemy => 25 ≤ distSq (a.posX, a.posZ) (b.posX, b.posZ)) ms
  | [], reg, placed, k, ms, reg2, n, h => by
    rw [phaseA] at h
    simp only [Except.ok.injEq, Prod.mk.injEq] at h
    obtain ⟨hms, hreg, hn⟩ := h
    subst hms; subst hreg; subst hn
    exact ⟨rfl, Nat.le_max_left _ _, by simp, by simp, List.Pairwise.nil⟩
  | pos :: rest, reg, placed, k, ms, reg2, n, h => by
    rw [phaseA] at h
    by_cases hb : t ≤ placed
    · rw [if_pos hb] at h
      simp only [Except.ok.injEq, Prod.mk.injEq] at h
      obtain ⟨hms, hreg, hn⟩ := h
      subst hms; subst hreg; subst hn
      exact ⟨rfl, Nat.le_max_left _ _, by simp, by simp, List.Pairwise.nil⟩
    · rw [if_neg hb] at h
      by_cases hsafe : distSq pos spawn < 225
      · rw [if_pos hsafe] at h
        obtain ⟨h1, h2, h3, h4, h5⟩ :=
          phaseA_ok_inv o spawn t rest reg placed (k + 1) ms reg2 n h
        exact ⟨h1, h2, fun m hm => List.mem_cons_of_mem _ (h3 m hm), h4, h5⟩
      · rw [if_neg hsafe] at h
        cases hc : is_position_clear pos 25 reg with
        | error u =>
          rw [hc] at h
          exact Except.noConfusion h
        | ok b =>
          rw [hc] at h
          cases b with
          | false =>
            simp only at h
            obtain ⟨h1, h2, h3, h4, h5⟩ :=
              phaseA_ok_inv o spawn t rest reg placed (k + 1) ms reg2 n h
            exact ⟨h1, h2, fun m hm => List.mem_cons_of_mem _ (h3 m hm), h4, h5⟩
          | true =>
            simp only at h
            cases hr : phaseA o spawn t rest (reg ++ [PyVal.pair pos])
                (placed + 1) (k + 1) with
            | error u =>
              rw [hr] at h
              exact Except.noConfusion h
            | ok tri =>
              obtain ⟨ms', reg2', n'⟩ := tri
              rw [hr] at h
              simp only [Except.ok.injEq, Prod.mk.injEq] at h
              obtain ⟨hms, hreg, hn⟩ := h
              subst hms; subst hreg; subst hn
              obtain ⟨h1, h2, h3, h4, h5⟩ :=
                phaseA_ok_inv o spawn t rest (reg ++ [PyVal.pair pos])
                  (placed + 1) (k + 1) ms' reg2' n' hr
              have hclear := is_position_clear_ok_true hc
              refine ⟨by simp [h1, Nat.add_comm, Nat.add_assoc, Nat.add_left_comm],
                by omega, ?_, ?_, ?_⟩
              · intro m hm
                rcases List.mem_cons.mp hm with hme | hmr
                · subst hme
                  rw [enemyA_pos]
                  exact List.mem_cons_self _ _
                · exact List.mem_cons_of_mem _ (h3 m hmr)
              · intro m hm q hq
                rcases List.mem_cons.mp hm with hme | hmr
                · subst hme
                  rw [enemyA_pos]
                  exact hclear q hq
                · exact h4 m hmr q (by simp [hq])
              · refine List.Pairwise.cons ?_ h5
                intro m hmr
                rw [enemyA_pos]
                have := h4 m hmr pos (by simp)
                rw [distSq_comm]
                exact this

/-! ### Phase B invariants -/

theorem propB_basePos (o : Oracle) (spawn pos : GPos) (k : Nat) :
    (propB o spawn pos k).basePos = pos := rfl

theorem phaseB_done (o : Oracle) (spawn : GPos) {t placed : Nat}
    (h : t ≤ placed) (floors : List GPos) (reg : List PyVal) (k : Nat) :
    phaseB o spawn t floors reg placed k = Except.ok ([], reg, placed) := by
  cases floors with
  | nil => rfl
  | cons pos rest => rw [phaseB, if_pos h]

/-- With a scalar-headed register, a Phase B step that is still below its
target raises `TypeError` at once (its clearance check has no skip
before it). -/
theorem phaseB_int_head_error (o : Oracle) (spawn : GPos) {t placed : Nat}
    (h : placed < t) (pos : GPos) (rest : List GPos) (n : Int)
    (rest2 : List PyVal) (k : Nat) :
    phaseB o spawn t (pos :: rest) (PyVal.int n :: rest2) placed k =
      Except.error () := by
  rw [phaseB, if_neg (by omega), is_position_clear_int_head]

/-- The combined loop invariant of Phase B (counting, candidate origin,
clearance against the incoming register, pairwise spacing of the
registered base positions). -/
theorem phaseB_ok_inv (o : Oracle) (spawn : GPos) (t : Nat) :
    ∀ (floors : List GPos) (reg : List PyVal) (placed k : Nat)
      (ps : List PlacedProp) (reg2 : List PyVal) (n : Nat),
      phaseB o spawn t floors reg placed k = Except.ok (ps, reg2, n) →
      n = placed + ps.length ∧ n ≤ max placed t ∧
        (∀ p ∈ ps, p.basePos ∈ floors) ∧
        (∀ p ∈ ps, ∀ q : GPos, PyVal.pair q ∈ reg → 4 ≤ distSq p.basePos q) ∧
        List.Pairwise
          (fun a b : PlacedProp => 4 ≤ distSq a.basePos b.basePos) ps
  | [], reg, placed, k, ps, reg2, n, h => by
    rw [phaseB] at h
    simp only [Except.ok.injEq, Prod.mk.injEq] at h
    obtain ⟨hps, hreg, hn⟩ := h
    subst hps; subst hreg; subst hn
    exact ⟨rfl, Nat.le_max_left _ _, by simp, by simp, List.Pairwise.nil⟩
  | pos :: rest, reg, placed, k, ps, reg2, n, h => by
    rw [phaseB] at h
    by_cases hb : t ≤ placed
    · rw [if_pos hb] at h
      simp only [Except.ok.injEq, Prod.mk.injEq] at h
      obtain ⟨hps, hreg, hn⟩ := h
      subst hps; subst hreg; subst hn
      exact ⟨rfl, Nat.le_max_left _ _, by simp, by simp, List.Pairwise.nil⟩
    · rw [if_neg hb] at h
      cases hc : is_position_clear pos 4 reg with
      | error u =>
        rw [hc] at h
        exact Except.noConfusion h
      | ok b =>
        rw [hc] at h
        cases b with
        | false =>
          simp only at h
          obtain ⟨h1, h2, h3, h4, h5⟩ :=
            phaseB_ok_inv o spawn t rest reg placed (k + 1) ps reg2 n h
          exact ⟨h1, h2, fun p hp => List.mem_cons_of_mem _ (h3 p hp), h4, h5⟩
        | true =>
          simp only at h
          cases hr : phaseB o spawn t rest (reg ++ [PyVal.pair pos])
              (placed + 1) (k + 1) with
          | error u =>
            rw [hr] at h
            exact Except.noConfusion h
          | ok tri =>
            obtain ⟨ps', reg2', n'⟩ := tri
            rw [hr] at h
            simp only [Except.ok.injEq, Prod.mk.injEq] at h
            obtain ⟨hps, hreg, hn⟩ := h
            subst hps; subst hreg; subst hn
            obtain ⟨h1, h2, h3, h4, h5⟩ :=
              phaseB_ok_inv o spawn t rest (reg ++ [PyVal.pair pos])
                (placed + 1) (k + 1) ps' reg2' n' hr
            have hclear := is_position_clear_ok_true hc
            refine ⟨by simp [h1, Nat.add_comm, Nat.add_assoc, Nat.add_left_comm],
              by omega, ?_, ?_, ?_⟩
            · intro p hp
              rcases List.mem_cons.mp hp with hpe | hpr
              · subst hpe
                rw [propB_basePos]
                exact List.mem_cons_self _ _
              · exact List.mem_cons_of_mem _ (h3 p hpr)
            · intro p hp q hq
              rcases List.mem_cons.mp hp with hpe | hpr
              · subst hpe
                rw [propB_basePos]
                exact hclear q hq
              · exact h4 p hpr q (by simp [hq])
            · refine List.Pairwise.cons ?_ h5
              intro p hpr
              rw [propB_basePos]
              have := h4 p hpr pos (by simp)
              rw [distSq_comm]
              exact this

/-! ### Phase C invariants -/

/-- Every emitted cluster member survived the bounds and terrain guards:
it is in-grid, on a floor cell, never a boss, and its level is
`max(1, tier)` for the anchor's tier. -/
theorem clusterMembers_facts (o : Oracle) (w d : Nat) (tiles : Grid)
    (pool : List String) (tier : Nat) (anchor : GPos) (k : Nat) :
    ∀ (i r : Nat) (m : Enemy),
      m ∈ clusterMembers o w d tiles pool tier anchor k i r →
      m.isBoss = false ∧ m.level = max 1 tier ∧
        0 ≤ m.posX ∧ m.posX < (w : Int) ∧ 0 ≤ m.posZ ∧ m.posZ < (d : Int) ∧
        cellAt tiles m.posX.toNat m.posZ.toNat = 1
  | i, 0, m, hm => by simp [clusterMembers] at hm
  | i, r + 1, m, hm => by
    rw [clusterMembers] at hm
    by_cases h1 : (anchor.1 + (o.membOff k i).1 < 0 ∨
        (w : Int) ≤ anchor.1 + (o.membOff k i).1)
    · rw [if_pos h1] at hm
      exact clusterMembers_facts o w d tiles pool tier anchor k (i + 1) r m hm
    · rw [if_neg h1] at hm
      by_cases h2 : (anchor.2 + (o.membOff k i).2 < 0 ∨
          (d : Int) ≤ anchor.2 + (o.membOff k i).2)
      · rw [if_pos h2] at hm
        exact clusterMembers_facts o w d tiles pool tier anchor k (i + 1) r m hm
      · rw [if_neg h2] at hm
        by_cases h3 : cellAt tiles (anchor.1 + (o.membOff k i).1).toNat
            (anchor.2 + (o.membOff k i).2).toNat ≠ 1
        · rw [if_pos h3] at hm
          exact clusterMembers_facts o w d tiles pool tier anchor k (i + 1) r m hm
        · rw [if_neg h3] at hm
          rcases List.mem_cons.mp hm with hme | hmr
          · subst hme
            push_neg at h1 h2 h3
            exact ⟨rfl, rfl, h1.1, h1.2, h2.1, h2.2, h3⟩
          · exact clusterMembers_facts o w d tiles pool tier anchor k (i + 1) r m hmr

theorem phaseC_done (o : Oracle) (spawn : GPos) (w d : Nat) (tiles : Grid)
    {t placed : Nat} (h : t ≤ placed) (floors : List GPos)
    (reg : List PyVal) (k : Nat) :
    phaseC o spawn w d tiles t floors reg placed k =
      Except.ok ([], reg, placed) := by
  cases floors with
  | nil => rfl
  | cons pos rest => rw [phaseC, if_pos h]

/-- The combined loop invariant of Phase C: the group counter grows by
exactly one per accepted anchor and stays at or below the target, the
register grows by exactly one pair entry per accepted anchor (members
are never registered), and every emitted member is an in-bounds,
on-floor, non-boss monster. -/
theorem phaseC_ok_inv (o : Oracle) (spawn : GPos) (w d : Nat)
    (tiles : Grid) (t : Nat) :
    ∀ (floors : List GPos) (reg : List PyVal) (placed k : Nat)
      (ms : List Enemy) (reg2 : List PyVal) (n : Nat),
      phaseC o spawn w d tiles t floors reg placed k =
          Except.ok (ms, reg2, n) →
      n ≤ max placed t ∧ reg2.length + placed = reg.length + n ∧
        (∀ m ∈ ms, m.isBoss = false ∧
          0 ≤ m.posX ∧ m.posX < (w : Int) ∧ 0 ≤ m.posZ ∧ m.posZ < (d : Int) ∧
          cellAt tiles m.posX.toNat m.posZ.toNat = 1)
  | [], reg, placed, k, ms, reg2, n, h => by
    rw [phaseC] at h
    simp only [Except.ok.injEq, Prod.mk.injEq] at h
    obtain ⟨hms, hreg, hn⟩ := h
    subst hms; subst hreg; subst hn
    exact ⟨Nat.le_max_left _ _, by omega, by simp⟩
  | pos :: rest, reg, placed, k, ms, reg2, n, h => by
    rw [phaseC] at h
    by_cases hb : t ≤ placed
    · rw [if_pos hb] at h
      simp only [Except.ok.injEq, Prod.mk.injEq] at h
      obtain ⟨hms, hreg, hn⟩ := h
      subst hms; subst hreg; subst hn
      exact ⟨Nat.le_max_left _ _, by omega, by simp⟩
    · rw [if_neg hb] at h
      by_cases hsafe : distSq pos spawn < 1600
      · rw [if_pos hsafe] at h
        exact phaseC_ok_inv o spawn w d tiles t rest reg placed (k + 1)
          ms reg2 n h
      · rw [if_neg hsafe] at h
        cases hc : is_position_clear pos 100 reg with
        | error u =>
          rw [hc] at h
          exact Except.noConfusion h
        | ok b =>
          rw [hc] at h
          cases b with
          | false =>
            simp only at h
            exact phaseC_ok_inv o spawn w d tiles t rest reg placed (k + 1)
              ms reg2 n h
          | true =>
            simp only at h
            cases hr : phaseC o spawn w d tiles t rest
                (reg ++ [PyVal.pair pos]) (placed + 1) (k + 1) with
            | error u =>
              rw [hr] at h
              exact Except.noConfusion h
            | ok tri =>
              obtain ⟨ms', reg2', n'⟩ := tri
              rw [hr] at h
              simp only [Except.ok.injEq, Prod.mk.injEq] at h
              obtain ⟨hms, hreg, hn⟩ := h
              subst hms; subst hreg; subst hn
              obtain ⟨h1, h2, h3⟩ :=
                phaseC_ok_inv o spawn w d tiles t rest
                  (reg ++ [PyVal.pair pos]) (placed + 1) (k + 1) ms' reg2' n' hr
              refine ⟨by omega, by simp at h2; omega, ?_⟩
              intro m hm
              rcases List.mem_append.mp hm with hmc | hmr
              · obtain ⟨hb', hl', hf⟩ :=
                  clusterMembers_facts o w d tiles _ _ pos k 0 (o.grpSize k) m hmc
                exact ⟨hb', hf⟩
              · exact h3 m hmr

/-- C1: with tile data present and decodable, a run over a decoded grid
with at least 50 floor cells raises an uncaught `TypeError` at the first
executed clearance check (the register starts with the two scalar
coordinates inserted by `list(spawn_pos)`, and `distance_from_spawn`
subscripts that scalar) and writes no output; with fewer than 50 floor
cells every placement target is 0, the run completes, and the written
document carries no generated entities. -/
theorem claim_C1_crash_or_empty (doc : MapDoc)
    (dec : String → Except Unit (List Nat)) (o : Oracle) (bytes : List Nat)
    (htd : doc.tileData.getD emptyStr ≠ emptyStr)
    (hdec : dec (doc.tileData.getD emptyStr) = Except.ok bytes)
    (hperm : (o.shuffle (floorsFrom doc bytes)).Perm (floorsFrom doc bytes)) :
    (50 ≤ (floorsFrom doc bytes).length →
      populate_map doc dec o = Except.error PMError.typeError) ∧
    ((floorsFrom doc bytes).length < 50 →
      populate_map doc dec o = Except.ok (mergeStep doc [] []) ∧
        (mergeStep doc [] []).enemies = doc.enemies ∧
        (mergeStep doc [] []).placedProps = doc.placedProps) := by
  have hlen : (o.shuffle (floorsFrom doc bytes)).length =
      (floorsFrom doc bytes).length := hperm.length_eq
  have hff : find_floor_positions
      (decode_tile_data bytes (doc.width.getD 100) (doc.depth.getD 100))
      (doc.width.getD 100) (doc.depth.getD 100) = floorsFrom doc bytes := rfl
  have hreg : ∀ spawn : GPos, initRegister spawn doc.enemies =
      PyVal.int spawn.1 :: PyVal.int spawn.2 ::
        doc.enemies.map (fun e => PyVal.pair (e.posX, e.posZ)) :=
    fun _ => rfl
  constructor
  · intro h50
    simp only [populate_map, if_neg htd, hdec, hff, hreg]
    rcases phaseA_int_head o
        (doc.spawnPos.getD
          (((doc.width.getD 100 / 2 : Nat) : Int),
            ((doc.depth.getD 100 / 2 : Nat) : Int)))
        ((o.shuffle (floorsFrom doc bytes)).length / 100)
        (o.shuffle (floorsFrom doc bytes))
        (doc.spawnPos.getD
          (((doc.width.getD 100 / 2 : Nat) : Int),
            ((doc.depth.getD 100 / 2 : Nat) : Int))).1
        (PyVal.int (doc.spawnPos.getD
          (((doc.width.getD 100 / 2 : Nat) : Int),
            ((doc.depth.getD 100 / 2 : Nat) : Int))).2 ::
          doc.enemies.map (fun e => PyVal.pair (e.posX, e.posZ)))
        0 0 with hA | hA
    · simp only [hA]
    · simp only [hA]
      have hpos : 0 < (o.shuffle (floorsFrom doc bytes)).length := by omega
      cases hsl : o.shuffle (floorsFrom doc bytes) with
      | nil => rw [hsl] at hpos; simp at hpos
      | cons pos rest =>
        rw [hsl] at hlen
        have hlt : 0 < (pos :: rest).length / 50 := by
          rw [hlen]
          exact (Nat.one_le_div_iff (by norm_num)).mpr h50
        rw [phaseB_int_head_error o _ hlt pos rest _ _ 0]
  · intro h50
    have h100 : (o.shuffle (floorsFrom doc bytes)).length / 100 = 0 := by
      rw [hlen]; omega
    have h50d : (o.shuffle (floorsFrom doc bytes)).length / 50 = 0 := by
      rw [hlen]; omega
    have h500 : min 20 ((o.shuffle (floorsFrom doc bytes)).length / 500) = 0 := by
      rw [hlen]
      have h0 : (floorsFrom doc bytes).length / 500 = 0 := by omega
      rw [h0]
      simp
    refine ⟨?_, by simp [mergeStep], by simp [mergeStep]⟩
    simp only [populate_map, if_neg htd, hdec, hff, h100, h50d, h500]
    simp only [phaseA_done o _ (Nat.le_refl 0), phaseB_done o _ (Nat.le_refl 0),
      phaseC_done o _ _ _ _ (Nat.le_refl 0), List.nil_append]

/-! ### Concrete fixtures used by the witness theorems -/

/-- A concrete oracle: identity shuffle, all draws constant. -/
def wOracle : Oracle where
  shuffle := id
  monIdx := fun _ => 0
  bossRoll := fun _ => false
  bossIdx := fun _ => 0
  rotA := fun _ => 0
  propIdx := fun _ => 0
  jitX := fun _ => 0
  jitZ := fun _ => 0
  rotB := fun _ => 0
  sclB := fun _ => 0
  grpSize := fun _ => 3
  membOff := fun _ _ => (0, 0)
  membIdx := fun _ _ => 0
  membRot := fun _ _ => 0

/-- A 60×60 grid whose only floor cell is `(50, 0)`. -/
def wTiles60 : Grid := setCell (initGrid 60 60) 50 0 1

/-- A 21×21 grid whose only floor cell is `(20, 0)`. -/
def wTiles21 : Grid := setCell (initGrid 21 21) 20 0 1

def wTD : String := "B"

/-- A 10×10 document whose blob decodes to an all-floor grid. -/
def wDocBig : MapDoc where
  width := some 10
  depth := some 10
  spawnPos := some (5, 5)
  tileData := some wTD
  enemies := []
  placedProps := []
  name := none

/-- Decompression fixture: yields the run `(1, 0xFF, 100)`. -/
def wDecBig : String → Except Unit (List Nat) := fun _ => Except.ok [1, 255, 100]

/-- Decompression fixture: yields the run `(1, 0xFF, 40)`. -/
def wDecSmall : String → Except Unit (List Nat) := fun _ => Except.ok [1, 255, 40]

/-- A document with no `tileData` field. -/
def wDocNoTile : MapDoc where
  width := some 10
  depth := some 10
  spawnPos := some (5, 5)
  tileData := none
  enemies := []
  placedProps := []
  name := none

set_option maxRecDepth 100000 in
/-- Witness for C1: the all-floor 10×10 document (100 ≥ 50 floor cells)
makes the run raise `TypeError`. -/
theorem claim_C1_crash_or_empty_witness :
    50 ≤ (floorsFrom wDocBig [1, 255, 100]).length ∧
      populate_map wDocBig wDecBig wOracle = Except.error PMError.typeError :=
  ⟨by decide,
   (claim_C1_crash_or_empty wDocBig wDecBig wOracle [1, 255, 100]
      (by decide) rfl (List.Perm.refl _)).1 (by decide)⟩

/-- C2: in every run of the placement engine (any target, any incoming
register state, any oracle draws), the monsters Phase A places are
pairwise at Euclidean distance ≥ 5 (squared ≥ 25), the props Phase B
places are pairwise ≥ 2 apart (squared ≥ 4) on their registered
unjittered positions, and Phase C adds exactly one register entry per
placed group — the anchor — so cluster-member positions never enter the
register. -/
theorem claim_C2_spacing (o : Oracle) (spawn : GPos)
    (tA tB tC : Nat) (floorsA floorsB floorsC : List GPos)
    (regA regB regC : List PyVal) (pA pB pC kA kB kC : Nat)
    (msA : List Enemy) (regA2 : List PyVal) (nA : Nat)
    (ps : List PlacedProp) (regB2 : List PyVal) (nB : Nat)
    (w d : Nat) (tiles : Grid)
    (msC : List Enemy) (regC2 : List PyVal) (nC : Nat)
    (hA : phaseA o spawn tA floorsA regA pA kA = Except.ok (msA, regA2, nA))
    (hB : phaseB o spawn tB floorsB regB pB kB = Except.ok (ps, regB2, nB))
    (hC : phaseC o spawn w d tiles tC floorsC regC pC kC =
      Except.ok (msC, regC2, nC)) :
    List.Pairwise
        (fun a b : Enemy => 25 ≤ distSq (a.posX, a.posZ) (b.posX, b.posZ))
        msA ∧
      List.Pairwise (fun a b : PlacedProp => 4 ≤ distSq a.basePos b.basePos)
        ps ∧
      regC2.length + pC = regC.length + nC :=
  ⟨(phaseA_ok_inv o spawn tA floorsA regA pA kA msA regA2 nA hA).2.2.2.2,
   (phaseB_ok_inv o spawn tB floorsB regB pB kB ps regB2 nB hB).2.2.2.2,
   (phaseC_ok_inv o spawn w d tiles tC floorsC regC pC kC msC regC2 nC hC).2.1⟩

/-- Witness for C2 on concrete runs of the three phases. -/
theorem claim_C2_spacing_witness :
    List.Pairwise
        (fun a b : Enemy => 25 ≤ distSq (a.posX, a.posZ) (b.posX, b.posZ))
        [enemyA wOracle (0, 0) (20, 0) 0] ∧
      List.Pairwise (fun a b : PlacedProp => 4 ≤ distSq a.basePos b.basePos)
        [propB wOracle (0, 0) (20, 0) 0] ∧
      ([PyVal.pair ((50 : Int), (0 : Int))]).length + 0 =
        ([] : List PyVal).length + 1 :=
  claim_C2_spacing wOracle (0, 0) 1 1 1 [(20, 0)] [(20, 0)] [(50, 0)]
    [] [] [] 0 0 0 0 0 0
    [enemyA wOracle (0, 0) (20, 0) 0] [PyVal.pair (20, 0)] 1
    [propB wOracle (0, 0) (20, 0) 0] [PyVal.pair (20, 0)] 1
    60 60 wTiles60
    (membersC wOracle 60 60 wTiles60 (0, 0) (50, 0) 0) [PyVal.pair (50, 0)] 1
    rfl rfl rfl

/-- A pre-existing prop at cell `(3, 4)` (integer coordinates, no
jitter). -/
def wProp34 : PlacedProp where
  type := r"barrel"
  x := 3
  y := 0
  z := 4
  rotY := 0
  scale := 1
  basePos := (3, 4)

/-- A document with spawn `(5, 5)`, no pre-existing enemies and one
pre-existing prop at `(3, 4)`. -/
def wDocProp : MapDoc where
  width := some 10
  depth := some 10
  spawnPos := some (5, 5)
  tileData := some wTD
  enemies := []
  placedProps := [wProp34]
  name := none

/-- C3 counterexample: the claimed register shape fails at two concrete
documents, forcing both corrections.  At `wDocBig` (spawn `(5, 5)`, no
pre-existing entities of either kind) the claimed register is the
one-element sequence holding the spawn position pair, but the actual
register is not it — `list(spawn_pos)` flattens the spawn into two
scalar entries.  At `wDocProp` (spawn `(5, 5)`, no enemies, one
pre-existing prop at cell `(3, 4)`) the claimed register — the spawn
position followed by the positions of all pre-existing entities, so
here the prop's position — also differs from the actual one; indeed the
actual register is exactly `[int 5, int 5]`: it carries no entry for
the prop at all, because the source (lines 117–119) appends only enemy
positions, never `placedProps` entries (`populate_map` passes only
`doc.enemies` to `initRegister`). -/
theorem claim_C3_counterexample :
    initRegister (5, 5) wDocBig.enemies ≠ [PyVal.pair (5, 5)] ∧
      initRegister (5, 5) wDocProp.enemies ≠
        [PyVal.pair (5, 5), PyVal.pair (3, 4)] ∧
      initRegister (5, 5) wDocProp.enemies = [PyVal.int 5, PyVal.int 5] := by
  decide

/-- C3 amended: before Phase A the register is the spawn point's two
scalar coordinates (inserted by `list(spawn_pos)`) followed by the
positions of the pre-existing enemies in document order — not the spawn
pair itself, which is never what the first two entries hold, and not
the positions of pre-existing props, which the source never registers
(`populate_map` builds the register from `doc.enemies` alone, as the
counterexample's `wDocProp` conjuncts exhibit).  It is used only for
spacing checks and never serialized (the merged output is built from
the document's own fields plus the generated lists only). -/
theorem claim_C3_register_amended (spawn : GPos) (enemies : List Enemy) :
    initRegister spawn enemies =
        PyVal.int spawn.1 :: PyVal.int spawn.2 ::
          enemies.map (fun e => PyVal.pair (e.posX, e.posZ)) ∧
      initRegister spawn enemies ≠
        PyVal.pair spawn ::
          enemies.map (fun e => PyVal.pair (e.posX, e.posZ)) := by
  refine ⟨rfl, ?_⟩
  intro h
  simp [initRegister, pyListOfPair] at h

/-- Witness for C3's amended statement at spawn `(5, 5)`, no enemies. -/
theorem claim_C3_register_amended_witness :
    initRegister (5, 5) [] =
        PyVal.int 5 :: PyVal.int 5 ::
          ([] : List Enemy).map (fun e => PyVal.pair (e.posX, e.posZ)) ∧
      initRegister (5, 5) [] ≠
        PyVal.pair (5, 5) ::
          ([] : List Enemy).map (fun e => PyVal.pair (e.posX, e.posZ)) :=
  claim_C3_register_amended (5, 5) []

/-- C4: with the targets the source computes — `floorCount // 100`
monsters, `floorCount // 50` props, `min(20, floorCount // 500)` groups,
where `floorCount` is the length of the (shuffled) floor-position
list — each phase, started at counter 0 as in the source, never exceeds
its target. -/
theorem claim_C4_density_bounds (o : Oracle) (spawn : GPos)
    (shuffled : List GPos) (regA regB regC : List PyVal)
    (kA kB kC : Nat) (w d : Nat) (tiles : Grid)
    (msA : List Enemy) (regA2 : List PyVal) (nA : Nat)
    (ps : List PlacedProp) (regB2 : List PyVal) (nB : Nat)
    (msC : List Enemy) (regC2 : List PyVal) (nC : Nat)
    (hA : phaseA o spawn (shuffled.length / 100) shuffled regA 0 kA =
      Except.ok (msA, regA2, nA))
    (hB : phaseB o spawn (shuffled.length / 50) shuffled regB 0 kB =
      Except.ok (ps, regB2, nB))
    (hC : phaseC o spawn w d tiles (min 20 (shuffled.length / 500))
        (stride50 shuffled) regC 0 kC = Except.ok (msC, regC2, nC)) :
    msA.length ≤ shuffled.length / 100 ∧
      ps.length ≤ shuffled.length / 50 ∧
      nC ≤ min 20 (shuffled.length / 500) := by
  obtain ⟨ha1, ha2, -, -, -⟩ :=
    phaseA_ok_inv o spawn (shuffled.length / 100) shuffled regA 0 kA
      msA regA2 nA hA
  obtain ⟨hb1, hb2, -, -, -⟩ :=
    phaseB_ok_inv o spawn (shuffled.length / 50) shuffled regB 0 kB
      ps regB2 nB hB
  obtain ⟨hc1, -, -⟩ :=
    phaseC_ok_inv o spawn w d tiles (min 20 (shuffled.length / 500))
      (stride50 shuffled) regC 0 kC msC regC2 nC hC
  refine ⟨by omega, by omega, by omega⟩

set_option maxRecDepth 400000 in
/-- Witness for C4 on a concrete 100-cell floor list: targets are 1
monster, 2 props, 0 groups; the runs place 1, 1 and 0. -/
theorem claim_C4_density_bounds_witness :
    ([enemyA wOracle (0, 0) (50, 0) 0]).length ≤
        (List.replicate 100 ((50, 0) : GPos)).length / 100 ∧
      ([propB wOracle (0, 0) (50, 0) 0]).length ≤
        (List.replicate 100 ((50, 0) : GPos)).length / 50 ∧
      0 ≤ min 20 ((List.replicate 100 ((50, 0) : GPos)).length / 500) :=
  claim_C4_density_bounds wOracle (0, 0) (List.replicate 100 ((50, 0) : GPos))
    [] [] [] 0 0 0 60 60 wTiles60
    [enemyA wOracle (0, 0) (50, 0) 0] [PyVal.pair (50, 0)] 1
    [propB wOracle (0, 0) (50, 0) 0] [PyVal.pair (50, 0)] 1
    [] [] 0
    rfl rfl rfl

/-- Unpacks floor-list membership into bounds and the tile-code-1 fact. -/
theorem floor_facts {tiles : Grid} {w d : Nat} {p : GPos}
    (hp : p ∈ find_floor_positions tiles w d) :
    0 ≤ p.1 ∧ p.1 < (w : Int) ∧ 0 ≤ p.2 ∧ p.2 < (d : Int) ∧
      cellAt tiles p.1.toNat p.2.toNat = 1 := by
  obtain ⟨x, z, hx, hz, hc, hpeq⟩ := mem_find_floor_positions.mp hp
  subst hpeq
  refine ⟨Int.natCast_nonneg x, ?_, Int.natCast_nonneg z, ?_, ?_⟩
  · show (x : Int) < (w : Int)
    exact_mod_cast hx
  · show (z : Int) < (d : Int)
    exact_mod_cast hz
  · simpa using hc

/-- C8: every generated entity sits on a floor cell of the decoded grid.
Phase A monsters and Phase B props take their (base) positions from the
walked floor list, hence — whenever that list only holds floor
positions, as the shuffled `find_floor_positions` output does — from
cells with tile code 1; and every emitted Phase C cluster member
survived the bounds/terrain guards: in-grid, tile code 1, non-boss,
with level `max(1, anchor tier)`. -/
theorem claim_C8_floor_cells (o : Oracle) (spawn : GPos) (tiles : Grid)
    (w d : Nat) (shuffled : List GPos)
    (hsub : ∀ p ∈ shuffled, p ∈ find_floor_positions tiles w d)
    (tA tB : Nat) (regA regB : List PyVal) (pA pB kA kB : Nat)
    (msA : List Enemy) (regA2 : List PyVal) (nA : Nat)
    (ps : List PlacedProp) (regB2 : List PyVal) (nB : Nat)
    (hA : phaseA o spawn tA shuffled regA pA kA = Except.ok (msA, regA2, nA))
    (hB : phaseB o spawn tB shuffled regB pB kB = Except.ok (ps, regB2, nB))
    (pool : List String) (tier : Nat) (anchor : GPos) (k i r : Nat) :
    (∀ m ∈ msA, 0 ≤ m.posX ∧ m.posX < (w : Int) ∧
      0 ≤ m.posZ ∧ m.posZ < (d : Int) ∧
      cellAt tiles m.posX.toNat m.posZ.toNat = 1) ∧
    (∀ p ∈ ps, 0 ≤ p.basePos.1 ∧ p.basePos.1 < (w : Int) ∧
      0 ≤ p.basePos.2 ∧ p.basePos.2 < (d : Int) ∧
      cellAt tiles p.basePos.1.toNat p.basePos.2.toNat = 1) ∧
    (∀ m ∈ clusterMembers o w d tiles pool tier anchor k i r,
      m.isBoss = false ∧ m.level = max 1 tier ∧
      0 ≤ m.posX ∧ m.posX < (w : Int) ∧ 0 ≤ m.posZ ∧ m.posZ < (d : Int) ∧
      cellAt tiles m.posX.toNat m.posZ.toNat = 1) := by
  refine ⟨?_, ?_, ?_⟩
  · intro m hm
    have hmem := (phaseA_ok_inv o spawn tA shuffled regA pA kA
      msA regA2 nA hA).2.2.1 m hm
    exact floor_facts (hsub _ hmem)
  · intro p hp
    have hmem := (phaseB_ok_inv o spawn tB shuffled regB pB kB
      ps regB2 nB hB).2.2.1 p hp
    exact floor_facts (hsub _ hmem)
  · intro m hm
    exact clusterMembers_facts o w d tiles pool tier anchor k i r m hm

def wEnemy : Enemy := enemyA wOracle (0, 0) (20, 0) 0

def wProp : PlacedProp := propB wOracle (0, 0) (20, 0) 0

def wMembers : List Enemy :=
  clusterMembers wOracle 21 21 wTiles21 TIER1_MONSTERS 1 (20, 0) 0 0 1

def wMember : Enemy := wMembers.headD wEnemy

set_option maxRecDepth 400000 in
/-- Witness for C8 on the 21×21 grid whose only floor cell is `(20, 0)`:
the placed monster, the placed prop's base position and the emitted
cluster member all sit on that floor cell. -/
theorem claim_C8_floor_cells_witness :
    (0 ≤ wEnemy.posX ∧ wEnemy.posX < (21 : Int) ∧
      0 ≤ wEnemy.posZ ∧ wEnemy.posZ < (21 : Int) ∧
      cellAt wTiles21 wEnemy.posX.toNat wEnemy.posZ.toNat = 1) ∧
    (0 ≤ wProp.basePos.1 ∧ wProp.basePos.1 < (21 : Int) ∧
      0 ≤ wProp.basePos.2 ∧ wProp.basePos.2 < (21 : Int) ∧
      cellAt wTiles21 wProp.basePos.1.toNat wProp.basePos.2.toNat = 1) ∧
    (wMember.isBoss = false ∧ wMember.level = max 1 1 ∧
      0 ≤ wMember.posX ∧ wMember.posX < (21 : Int) ∧
      0 ≤ wMember.posZ ∧ wMember.posZ < (21 : Int) ∧
      cellAt wTiles21 wMember.posX.toNat wMember.posZ.toNat = 1) :=
  ⟨(claim_C8_floor_cells wOracle (0, 0) wTiles21 21 21 [(20, 0)] (by decide)
      1 1 [] [] 0 0 0 0 [wEnemy] [PyVal.pair (20, 0)] 1
      [wProp] [PyVal.pair (20, 0)] 1 rfl rfl
      TIER1_MONSTERS 1 (20, 0) 0 0 1).1 wEnemy (List.mem_cons_self _ _),
   (claim_C8_floor_cells wOracle (0, 0) wTiles21 21 21 [(20, 0)] (by decide)
      1 1 [] [] 0 0 0 0 [wEnemy] [PyVal.pair (20, 0)] 1
      [wProp] [PyVal.pair (20, 0)] 1 rfl rfl
      TIER1_MONSTERS 1 (20, 0) 0 0 1).2.1 wProp (List.mem_cons_self _ _),
   (claim_C8_floor_cells wOracle (0, 0) wTiles21 21 21 [(20, 0)] (by decide)
      1 1 [] [] 0 0 0 0 [wEnemy] [PyVal.pair (20, 0)] 1
      [wProp] [PyVal.pair (20, 0)] 1 rfl rfl
      TIER1_MONSTERS 1 (20, 0) 0 0 1).2.2 wMember (by
        rw [show clusterMembers wOracle 21 21 wTiles21 TIER1_MONSTERS 1
          (20, 0) 0 0 1 = [wMember] from rfl]
        exact List.mem_cons_self _ _)⟩

/-- C9: the merge step is purely additive — the output's enemies list is
exactly the existing records followed by the generated monsters (length
N + generated), likewise for props (length M + generated), no existing
entry is mutated or removed (the originals are the untouched prefix),
and the display name is the old name (default `Map`) with the fixed
`' (Populated)'` suffix; moreover, every successful run's output has
this shape. -/
theorem claim_C9_merge_additive (doc : MapDoc) (genE : List Enemy)
    (genP : List PlacedProp) :
    (mergeStep doc genE genP).enemies = doc.enemies ++ genE ∧
    (mergeStep doc genE genP).enemies.length =
      doc.enemies.length + genE.length ∧
    (mergeStep doc genE genP).enemies.take doc.enemies.length =
      doc.enemies ∧
    (mergeStep doc genE genP).enemies.drop doc.enemies.length = genE ∧
    (mergeStep doc genE genP).placedProps = doc.placedProps ++ genP ∧
    (mergeStep doc genE genP).placedProps.length =
      doc.placedProps.length + genP.length ∧
    (mergeStep doc genE genP).placedProps.take doc.placedProps.length =
      doc.placedProps ∧
    (mergeStep doc genE genP).placedProps.drop doc.placedProps.length =
      genP ∧
    (mergeStep doc genE genP).name =
      some (doc.name.getD defaultMapName ++ populatedMark) ∧
    (∀ (dec : String → Except Unit (List Nat)) (o : Oracle) (out : MapDoc),
      populate_map doc dec o = Except.ok out →
        out.enemies.take doc.enemies.length = doc.enemies ∧
        out.placedProps.take doc.placedProps.length = doc.placedProps ∧
        out.name = some (doc.name.getD defaultMapName ++ populatedMark)) := by
  refine ⟨rfl, by simp [mergeStep], ?_, ?_, rfl, by simp [mergeStep],
    ?_, ?_, rfl, ?_⟩
  · exact List.take_left doc.enemies genE
  · exact List.drop_left doc.enemies genE
  · exact List.take_left doc.placedProps genP
  · exact List.drop_left doc.placedProps genP
  · intro dec o out hout
    simp only [populate_map] at hout
    split at hout
    · exact Except.noConfusion hout
    · split at hout
      · exact Except.noConfusion hout
      · split at hout
        · exact Except.noConfusion hout
        · split at hout
          · exact Except.noConfusion hout
          · split at hout
            · exact Except.noConfusion hout
            · injection hout with hout
              subst hout
              exact ⟨List.take_left doc.enemies _,
                List.take_left doc.placedProps _, rfl⟩

set_option maxRecDepth 400000 in
/-- Witness for C9's successful-run conjunct: the 40-floor-cell document
completes and its output preserves the existing lists as prefixes and
suffixes the name. -/
theorem claim_C9_merge_additive_witness :
    (mergeStep wDocBig [] []).enemies.take wDocBig.enemies.length =
        wDocBig.enemies ∧
      (mergeStep wDocBig [] []).placedProps.take wDocBig.placedProps.length =
        wDocBig.placedProps ∧
      (mergeStep wDocBig [] []).name =
        some (wDocBig.name.getD defaultMapName ++ populatedMark) :=
  (claim_C9_merge_additive wDocBig [] []).2.2.2.2.2.2.2.2.2 wDecSmall wOracle
    (mergeStep wDocBig [] []) rfl

/-- C10: an input document whose `tileData` field is absent or empty
aborts with the missing-data report before any placement, and no output
document is produced (`Except.ok` models the written destination, so a
successful run implies the tile data was present and non-empty). -/
theorem claim_C10_no_tiledata_aborts (doc : MapDoc)
    (dec : String → Except Unit (List Nat)) (o : Oracle) :
    (doc.tileData.getD emptyStr = emptyStr →
      populate_map doc dec o = Except.error PMError.noTileData) ∧
    (∀ out : MapDoc, populate_map doc dec o = Except.ok out →
      doc.tileData.getD emptyStr ≠ emptyStr) := by
  constructor
  · intro h
    simp only [populate_map, if_pos h]
  · intro out hout h
    simp only [populate_map, if_pos h] at hout
    exact Except.noConfusion hout

/-- Witness for C10: the document with no `tileData` field aborts with
the missing-data report. -/
theorem claim_C10_no_tiledata_aborts_witness :
    populate_map wDocNoTile wDecBig wOracle =
      Except.error PMError.noTileData :=
  (claim_C10_no_tiledata_aborts wDocNoTile wDecBig wOracle).1 rfl
